import Mathlib

/-!
Verification development for the damnvulnerablewebsite-interpreter-py
repository (a deliberately vulnerable Python interpreter wrapper written in
TypeScript).  The TypeScript sources `src/types.ts`, `src/linter.ts`,
`src/interpreter.ts` and `src/utils.ts` are shallowly embedded below:
pure computations become Lean functions, the effects of the outside world
(file system, spawned process, clock) are supplied through explicit
environment records, and JavaScript promises that can reject are modelled
with `Except`.
-/

namespace DVI

/-! ## Data model (src/types.ts) -/

/-- Embedding of the `PythonExecutionResult` interface (types.ts). -/
structure PythonExecutionResult where
  success : Bool
  stdout : String
  stderr : String
  exitCode : Int
  executionTime : Nat
deriving Repr, DecidableEq

/-- Embedding of the `LintError` interface (types.ts). -/
structure LintError where
  line : Nat
  column : Nat
  message : String
  severity : String
  rule : Option String
deriving Repr, DecidableEq

/-- Embedding of the `LintWarning` interface (types.ts). -/
structure LintWarning where
  line : Nat
  column : Nat
  message : String
  rule : Option String
deriving Repr, DecidableEq

/-- Embedding of the `PythonLintResult` interface (types.ts). -/
structure PythonLintResult where
  isValid : Bool
  errors : List LintError
  warnings : List LintWarning
deriving Repr, DecidableEq

/-- Embedding of the `InterpreterConfig` interface (types.ts) as held by a
constructed `PythonInterpreter`: after the constructor merge every field is
populated, so fields are total here.  The JS `environment` object is modelled
as an association list. -/
structure InterpreterConfig where
  pythonPath : String
  timeout : Nat
  maxOutputLines : Nat
  enableLinting : Bool
  allowUnsafeOperations : Bool
  workingDirectory : String
  environment : List (String × String)
deriving Repr, DecidableEq

/-- A caller-supplied `InterpreterConfig` object before the constructor merge:
every property is optional (`none` models an absent JS property). -/
structure PartialInterpreterConfig where
  pythonPath : Option String
  timeout : Option Nat
  maxOutputLines : Option Nat
  enableLinting : Option Bool
  allowUnsafeOperations : Option Bool
  workingDirectory : Option String
  environment : Option (List (String × String))
deriving Repr, DecidableEq

/-- The empty overrides object `{}`. -/
def emptyPartial : PartialInterpreterConfig :=
  ⟨none, none, none, none, none, none, none⟩

/-- JS object spread `{ ...base, ...o }` for a fully populated base: a field of
`o` wins when present, otherwise the base's field is kept. -/
def mergeConfig (base : InterpreterConfig) (o : PartialInterpreterConfig) :
    InterpreterConfig where
  pythonPath := o.pythonPath.getD base.pythonPath
  timeout := o.timeout.getD base.timeout
  maxOutputLines := o.maxOutputLines.getD base.maxOutputLines
  enableLinting := o.enableLinting.getD base.enableLinting
  allowUnsafeOperations := o.allowUnsafeOperations.getD base.allowUnsafeOperations
  workingDirectory := o.workingDirectory.getD base.workingDirectory
  environment := o.environment.getD base.environment

/-- The built-in defaults of the `PythonInterpreter` constructor
(interpreter.ts lines 28-37).  `process.cwd()` and `process.env` are external
inputs and are passed in as `procCwd` and `procEnv`. -/
def defaultInterpreterConfig (procCwd : String)
    (procEnv : List (String × String)) : InterpreterConfig where
  pythonPath := "python3"
  timeout := 30000
  maxOutputLines := 1000
  enableLinting := true
  allowUnsafeOperations := false
  workingDirectory := procCwd
  environment := procEnv

/-- The `PythonInterpreter` constructor merge `{ ...defaults, ...config }`
(interpreter.ts lines 28-37). -/
def mkInterpreterConfig (procCwd : String) (procEnv : List (String × String))
    (config : PartialInterpreterConfig) : InterpreterConfig :=
  mergeConfig (defaultInterpreterConfig procCwd procEnv) config

/-- Embedding of the `ExecutionOptions` interface (types.ts); every property
is optional. -/
structure ExecutionOptions where
  timeout : Option Nat
  cwd : Option String
  env : Option (List (String × String))
  stream : Option Bool
  sanitize : Option Bool
deriving Repr, DecidableEq

/-- The empty options object `{}`. -/
def emptyOptions : ExecutionOptions := ⟨none, none, none, none, none⟩

/-- Embedding of the `UnsafeExecutionContext` interface (types.ts). -/
structure UnsafeExecutionContext where
  allowShellAccess : Option Bool
  allowFileSystemAccess : Option Bool
  allowNetworkAccess : Option Bool
  allowImportAll : Option Bool
  bypassSandbox : Option Bool
deriving Repr, DecidableEq

/-! ## Heuristic security check (linter.ts, `performBasicSecurityCheck`)

The six `dangerousPatterns` regexes have the shape
`lit1 \s+ lit2` (the three import patterns) or `lit1 \s* \(` (the three call
patterns).  Because `lit2` always starts with a non-whitespace character,
greedy whitespace matching is equivalent to consuming the maximal whitespace
run, which is what the matcher below does. -/

/-- JS regex `\s` on the ASCII range (the source lines are ASCII; the Unicode
space classes of JS `\s` are not exercised by any pattern or input here). -/
def jsWhitespace (c : Char) : Bool :=
  c = ' ' || c = '\t' || c = '\n' || c = '\r' || c = '\x0b' || c = '\x0c'

/-- Length of the maximal leading whitespace run. -/
def wsCount : List Char → Nat
  | [] => 0
  | c :: cs => if jsWhitespace c then wsCount cs + 1 else 0

/-- Drop the rest of the list after a literal, or fail: `stripLit lit s = some
rest` iff `s = lit ++ rest`. -/
def stripLit : List Char → List Char → Option (List Char)
  | [], s => some s
  | _ :: _, [] => none
  | p :: ps, c :: cs => if c = p then stripLit ps cs else none

/-- One entry of the `dangerousPatterns` table: the regex
`pre` + (`\s+` when `wsPlus`, else `\s*`) + `post`, with its warning
message. -/
structure DangerPattern where
  pre : List Char
  wsPlus : Bool
  post : List Char
  message : String

/-- Does the pattern match at the head of `s`? -/
def matchHere (p : DangerPattern) (s : List Char) : Bool :=
  match stripLit p.pre s with
  | none => false
  | some rest =>
    let n := wsCount rest
    if p.wsPlus && n == 0 then false
    else (stripLit p.post (rest.drop n)).isSome

/-- JS `RegExp.test`: does the (unanchored) pattern match anywhere in `s`? -/
def testPattern (p : DangerPattern) : List Char → Bool
  | [] => matchHere p []
  | c :: cs => matchHere p (c :: cs) || testPattern p cs

/-- The `dangerousPatterns` table (linter.ts lines 211-218). -/
def dangerousPatterns : List DangerPattern :=
  [ ⟨"import".toList, true, "os".toList,
      "Potentially dangerous: os module import"⟩,
    ⟨"import".toList, true, "subprocess".toList,
      "Potentially dangerous: subprocess module import"⟩,
    ⟨"import".toList, true, "sys".toList,
      "Potentially dangerous: sys module import"⟩,
    ⟨"exec".toList, false, "(".toList,
      "Potentially dangerous: exec() function call"⟩,
    ⟨"eval".toList, false, "(".toList,
      "Potentially dangerous: eval() function call"⟩,
    ⟨"__import__".toList, false, "(".toList,
      "Potentially dangerous: __import__() function call"⟩ ]

/-- JS `String.prototype.split` with a one-character separator;
`splitOnChar c ""` is `[""]`, as in JS. -/
def splitOnChar (c : Char) : List Char → List (List Char)
  | [] => [[]]
  | x :: xs =>
    let rest := splitOnChar c xs
    if x = c then [] :: rest
    else
      match rest with
      | [] => [[x]]
      | r :: rs => (x :: r) :: rs

/-- Pair every line with its 1-based line number. -/
def numberLines (i : Nat) : List (List Char) → List (Nat × List Char)
  | [] => []
  | l :: ls => (i, l) :: numberLines (i + 1) ls

/-- Embedding of `PythonLinter.performBasicSecurityCheck` (linter.ts lines
205-236): split the code on newlines and, for each line, emit one warning per
matching pattern, in table order. -/
def performBasicSecurityCheck (code : String) : List LintWarning :=
  (numberLines 1 (splitOnChar '\n' code.toList)).flatMap fun nl =>
    dangerousPatterns.filterMap fun p =>
      if testPattern p nl.2 then
        some ⟨nl.1, 1, p.message, some "security-warning"⟩
      else none

/-! ## lintCode (linter.ts)

`lintCode` touches the outside world twice: `createTempFile` (which can
reject) and `checkSyntax` (which always resolves, returning the parsed
`py_compile` diagnostics).  The `LintEnv` record supplies both outcomes. -/

/-- Outside-world outcomes for one `lintCode` call: `tempFileError = some msg`
when `fs.writeFile` rejects, and the error list produced by the `checkSyntax`
stage (that promise always resolves, linter.ts lines 88-131). -/
structure LintEnv where
  tempFileError : Option String
  syntaxErrors : List LintError
deriving Repr, DecidableEq

/-- The error pushed by the `catch` branch of `lintCode`
(linter.ts lines 56-63). -/
def lintFailureError (msg : String) : LintError :=
  ⟨1, 1, "Linting failed: " ++ msg, "error", none⟩

/-- Embedding of `PythonLinter.lintCode` (linter.ts lines 26-66).  `strict` is
the optional `options.strict`; the heuristic stage runs unless it is
explicitly `false`.  When `createTempFile` rejects, control jumps to the
`catch` branch before anything was pushed, so the result holds exactly the
failure error.  Otherwise `isValid` is assigned `errors.length === 0`. -/
def lintCode (env : LintEnv) (code : String) (strict : Option Bool) :
    PythonLintResult :=
  match env.tempFileError with
  | some msg => ⟨false, [lintFailureError msg], []⟩
  | none =>
    let errors := env.syntaxErrors
    let warnings :=
      if strict = some false then [] else performBasicSecurityCheck code
    ⟨errors.length == 0, errors, warnings⟩

/-! ## Execution engine (interpreter.ts)

A spawned process is described by the chunks it delivered on its two output
streams, in arrival order, followed by its terminal event: either the `close`
notification carrying an optional exit code (`null` when the process was
killed by a signal), or the `error` notification of a spawn failure. -/

/-- One chunk delivered by the child process, tagged with its stream and the
`Date.now()` value observed when the corresponding handler ran. -/
inductive ProcEvent where
  | out (data : String) (ts : Nat)
  | err (data : String) (ts : Nat)
deriving Repr, DecidableEq

/-- Terminal event of a spawned process. -/
inductive ProcTerminal where
  | close (code : Option Int)
  | spawnErr (message : String)
deriving Repr, DecidableEq

/-- Full observable behavior of one spawned process. -/
structure ProcessRun where
  chunks : List ProcEvent
  terminal : ProcTerminal
deriving Repr, DecidableEq

/-- Concatenation of all stdout chunks (`stdout += data.toString()`). -/
def collectStdout : List ProcEvent → String
  | [] => ""
  | ProcEvent.out d _ :: rest => d ++ collectStdout rest
  | ProcEvent.err _ _ :: rest => collectStdout rest

/-- Concatenation of all stderr chunks (`stderr += data.toString()`). -/
def collectStderr : List ProcEvent → String
  | [] => ""
  | ProcEvent.out _ _ :: rest => collectStderr rest
  | ProcEvent.err d _ :: rest => d ++ collectStderr rest

/-- JS `code || 0` on the nullable exit code: `null` is replaced by `0`, and
a numeric `0` is falsy, so it also yields `0` (the same value). -/
def jsExitCode : Option Int → Int
  | none => 0
  | some c => c

/-- Embedding of `executeDirectly` (interpreter.ts lines 192-257).  The
`close` handler resolves with `success: code === 0` and `exitCode: code || 0`;
the `error` handler resolves (never rejects) with `success: false`, the spawn
diagnostic appended to the collected stderr, and `exitCode: 1`.  `elapsed`
stands for the final `Date.now() - startTime`. -/
def executeDirectly (run : ProcessRun) (elapsed : Nat) :
    PythonExecutionResult :=
  match run.terminal with
  | ProcTerminal.close code =>
      ⟨code == some 0, collectStdout run.chunks, collectStderr run.chunks,
        jsExitCode code, elapsed⟩
  | ProcTerminal.spawnErr msg =>
      ⟨false, collectStdout run.chunks, collectStderr run.chunks ++ msg,
        1, elapsed⟩

/-- Kind tag of a `StreamOutput` event (types.ts). -/
inductive StreamType where
  | stdout
  | stderr
  | error
  | complete
deriving Repr, DecidableEq

/-- Embedding of the `StreamOutput` interface (types.ts). -/
structure StreamOutput where
  type : StreamType
  data : String
  timestamp : Nat
deriving Repr, DecidableEq

/-- Number of `'\n'` characters in a chunk, which is exactly
`data.split('\n').length - 1` in the source (interpreter.ts line 128). -/
def countNewlines (s : String) : Nat :=
  (s.toList.filter fun c => c = '\n').length

/-- Mutable state of the streaming-mode handlers: the accumulated `stdout`
and `stderr` strings, the `outputLineCount` counter, and the `data` events
emitted so far. -/
structure StreamState where
  stdout : String
  stderr : String
  outputLineCount : Nat
  events : List StreamOutput
deriving Repr, DecidableEq

/-- State at the start of `executeWithStreaming`. -/
def initialStreamState : StreamState := ⟨"", "", 0, []⟩

/-- Embedding of the two `data` handlers of `executeWithStreaming`
(interpreter.ts lines 125-151).  A stdout chunk is always appended to the
collected `stdout` and always bumps the line counter, but its `StreamOutput`
event is emitted only when `allowUnsafeOperations` holds or the freshly
incremented counter is still below `maxOutputLines`.  A stderr chunk is
always collected and always emitted. -/
def stepChunk (cfg : InterpreterConfig) (st : StreamState) (e : ProcEvent) :
    StreamState :=
  match e with
  | ProcEvent.out data ts =>
      let cnt := st.outputLineCount + countNewlines data
      let events :=
        if cfg.allowUnsafeOperations = true ∨ cnt < cfg.maxOutputLines then
          st.events ++ [⟨StreamType.stdout, data, ts⟩]
        else st.events
      ⟨st.stdout ++ data, st.stderr, cnt, events⟩
  | ProcEvent.err data ts =>
      ⟨st.stdout, st.stderr ++ data, st.outputLineCount,
        st.events ++ [⟨StreamType.stderr, data, ts⟩]⟩

/-- Process all chunks of a run through the streaming handlers. -/
def runStream (cfg : InterpreterConfig) (chunks : List ProcEvent)
    (st : StreamState) : StreamState :=
  chunks.foldl (stepChunk cfg) st

/-- The `StreamOutput` event a chunk produces when nothing is suppressed. -/
def eventOf : ProcEvent → StreamOutput
  | ProcEvent.out d ts => ⟨StreamType.stdout, d, ts⟩
  | ProcEvent.err d ts => ⟨StreamType.stderr, d, ts⟩

/-- The `StreamOutput` event of a stderr chunk; `none` for stdout chunks. -/
def stderrEventOf : ProcEvent → Option StreamOutput
  | ProcEvent.out _ _ => none
  | ProcEvent.err d ts => some ⟨StreamType.stderr, d, ts⟩

/-- Total number of stdout line boundaries in a chunk list. -/
def outNewlines : List ProcEvent → Nat
  | [] => 0
  | ProcEvent.out d _ :: rest => countNewlines d + outNewlines rest
  | ProcEvent.err _ _ :: rest => outNewlines rest

/-- Embedding of `executeWithStreaming` (interpreter.ts lines 95-187).  The
`close` handler resolves with the same result shape as `executeDirectly` and
the emitted `data` events; the `error` handler calls `reject(error)`, so a
spawn failure makes the returned promise reject, modelled by
`Except.error`. -/
def executeWithStreaming (cfg : InterpreterConfig) (run : ProcessRun)
    (elapsed : Nat) :
    Except String (PythonExecutionResult × List StreamOutput) :=
  let st := runStream cfg run.chunks initialStreamState
  match run.terminal with
  | ProcTerminal.close code =>
      Except.ok
        (⟨code == some 0, st.stdout, st.stderr, jsExitCode code, elapsed⟩,
          st.events)
  | ProcTerminal.spawnErr msg => Except.error msg

/-- Outside-world outcomes for one `executeCode` call: the linter's
environment, the outcome of the interpreter's own `createTempFile`
(`some msg` when `fs.writeFile` rejects), the behavior of the spawned
process, and the elapsed-time readings. -/
structure ExecEnv where
  lintEnv : LintEnv
  tempFileError : Option String
  run : ProcessRun
  elapsed : Nat
deriving Repr, DecidableEq

/-- Embedding of `sanitizeCode` (interpreter.ts lines 262-269): the method
returns its argument unchanged (the replacement chain is commented out). -/
def sanitizeCode (code : String) : String := code

/-- The body of the `try` block of `executeCode` after the lint gate
(interpreter.ts lines 69-89).  `sanitizeCode` (applied unless
`allowUnsafeOperations`) is the identity, and the temp-file content does not
influence the modelled result.  When `createTempFile` rejects, the `catch`
branch resolves with a failed result.  In streaming mode the source executes
`return this.executeWithStreaming(...)` inside `try` WITHOUT `await`: the
returned promise is adopted as the async function's result, so its rejection
is NOT routed through the `catch` branch and propagates to the caller. -/
def executeCodeProceed (cfg : InterpreterConfig) (env : ExecEnv)
    (code : String) (options : ExecutionOptions) :
    Except String PythonExecutionResult :=
  let _sanitized :=
    if cfg.allowUnsafeOperations then code else sanitizeCode code
  match env.tempFileError with
  | some msg =>
      Except.ok ⟨false, "", "Execution failed: " ++ msg, 1, env.elapsed⟩
  | none =>
    if options.stream = some true then
      Except.map Prod.fst (executeWithStreaming cfg env.run env.elapsed)
    else
      Except.ok (executeDirectly env.run env.elapsed)

/-- JS `Array.prototype.join(sep)`. -/
def joinWith (sep : String) : List String → String
  | [] => ""
  | [x] => x
  | x :: xs => x ++ sep ++ joinWith sep xs

/-- Embedding of `executeCode` (interpreter.ts lines 50-90).  When linting is
enabled and the call did not pass `sanitize: false`, the lint pass runs with
`strict: !allowUnsafeOperations`; an invalid result short-circuits to a
failed result whose stderr is the error messages joined with newlines and
whose exit code is forced to 1, without consulting the process environment at
all.  Otherwise control continues with `executeCodeProceed`. -/
def executeCode (cfg : InterpreterConfig) (env : ExecEnv) (code : String)
    (options : ExecutionOptions) : Except String PythonExecutionResult :=
  if cfg.enableLinting = true ∧ options.sanitize ≠ some false then
    let lintResult :=
      lintCode env.lintEnv code (some (!cfg.allowUnsafeOperations))
    if lintResult.isValid = false then
      Except.ok
        ⟨false, "", joinWith "\n" (lintResult.errors.map fun e => e.message),
          1, env.elapsed⟩
    else executeCodeProceed cfg env code options
  else executeCodeProceed cfg env code options

/-! ## The kill timer (interpreter.ts lines 120-123 and 217-219) -/

/-- Delay passed to `setTimeout` by both execution paths: the source arms a
kill timer UNCONDITIONALLY with delay `options.timeout || this.config.timeout`
(JS `||`, under which a present per-call value of `0` is falsy and falls back
to the policy value). -/
def armedKillDelay (cfg : InterpreterConfig) (options : ExecutionOptions) :
    Option Nat :=
  some
    (match options.timeout with
     | none => cfg.timeout
     | some n => if n = 0 then cfg.timeout else n)

/-- Follows the spec's words, as the refinement target for the timer claim
(not source code): the effective timeout is the per-call override when
present, else the policy default, and an effective timeout of 0 arms no
timer at all. -/
def specTimerDelay (cfg : InterpreterConfig) (options : ExecutionOptions) :
    Option Nat :=
  let t := options.timeout.getD cfg.timeout
  if t = 0 then none else some t

/-! ## executeUnsafe (interpreter.ts lines 296-324) -/

/-- The `unsafeOptions` object built by `executeUnsafe` (lines 298-308).
The JS env object overlays four markers onto `this.config.environment`;
the overlay is modelled by list append with later entries shadowing. -/
def mkUnsafeOptions (cfg : InterpreterConfig)
    (context : UnsafeExecutionContext) : ExecutionOptions where
  timeout :=
    some (if context.bypassSandbox = some true then 0 else cfg.timeout)
  cwd := none
  env :=
    some (cfg.environment ++
      [("UNSAFE_MODE", "true"),
       ("ALLOW_SHELL_ACCESS",
         if context.allowShellAccess = some true then "true" else "false"),
       ("ALLOW_FS_ACCESS",
         if context.allowFileSystemAccess = some true then "true"
         else "false"),
       ("ALLOW_NETWORK_ACCESS",
         if context.allowNetworkAccess = some true then "true"
         else "false")])
  stream := none
  sanitize := some false

/-- Embedding of `executeUnsafe` (interpreter.ts lines 296-324).  The two
policy fields are saved, overwritten with the worst-case values, the inner
`executeCode` runs against the modified config, and the `finally` block
restores the two saved fields on both the resolve and the reject path.  The
returned pair is (outcome of the inner call, config after the call). -/
def executeUnsafe (cfg : InterpreterConfig) (env : ExecEnv) (code : String)
    (context : UnsafeExecutionContext) :
    Except String PythonExecutionResult × InterpreterConfig :=
  let opts := mkUnsafeOptions cfg context
  let originalEnableLinting := cfg.enableLinting
  let originalAllowUnsafe := cfg.allowUnsafeOperations
  let cfgForced :=
    { cfg with enableLinting := false, allowUnsafeOperations := true }
  let result := executeCode cfgForced env code opts
  (result,
    { cfgForced with
        enableLinting := originalEnableLinting,
        allowUnsafeOperations := originalAllowUnsafe })

/-! ## Safe and unsafe constructors (utils.ts) -/

/-- The `mergedConfig` object literal of `createInterpreter` (utils.ts lines
10-16): four safe defaults spread-overridden by the caller's config. -/
def createInterpreterMerged (config : PartialInterpreterConfig) :
    PartialInterpreterConfig where
  pythonPath := config.pythonPath
  timeout := some (config.timeout.getD 30000)
  maxOutputLines := some (config.maxOutputLines.getD 1000)
  enableLinting := some (config.enableLinting.getD true)
  allowUnsafeOperations := some (config.allowUnsafeOperations.getD false)
  workingDirectory := config.workingDirectory
  environment := config.environment

/-- The `safeConfig` object of `createInterpreter` (utils.ts lines 19-23):
`{ ...mergedConfig, enableLinting: true, allowUnsafeOperations: false }`. -/
def createInterpreterSafe (config : PartialInterpreterConfig) :
    PartialInterpreterConfig :=
  { createInterpreterMerged config with
      enableLinting := some true, allowUnsafeOperations := some false }

/-- Embedding of `createInterpreter` (utils.ts lines 9-26), returning the
policy of the constructed `PythonInterpreter`. -/
def createInterpreter (procCwd : String) (procEnv : List (String × String))
    (config : PartialInterpreterConfig) : InterpreterConfig :=
  mkInterpreterConfig procCwd procEnv (createInterpreterSafe config)

/-- Embedding of `createUnsafeInterpreter` (utils.ts lines 33-45), returning
the policy of the constructed `PythonInterpreter`.  Note the source comment
on its timeout default: `timeout: 0, // No timeout`. -/
def createUnsafeInterpreter (procCwd : String)
    (procEnv : List (String × String)) (config : PartialInterpreterConfig) :
    InterpreterConfig :=
  mkInterpreterConfig procCwd procEnv
    { pythonPath := config.pythonPath
      timeout := some (config.timeout.getD 0)
      maxOutputLines := some (config.maxOutputLines.getD 9007199254740991)
      enableLinting := some (config.enableLinting.getD false)
      allowUnsafeOperations := some (config.allowUnsafeOperations.getD true)
      workingDirectory := config.workingDirectory
      environment := config.environment }

/-! ## getConfig and updateConfig (interpreter.ts lines 343-352)

`getConfig` returns `{ ...this.config }`, a freshly allocated object; whether
a caller-side mutation of that object can reach the stored policy is a
question about object identity, so a minimal object heap is modelled: every
live config object lives at a numeric reference, and the interpreter holds
the reference of its policy object. -/

/-- A heap of config objects: the allocator hands out `next` and bumps it. -/
structure ObjHeap where
  objs : Nat → InterpreterConfig
  next : Nat

/-- The interpreter-instance state relevant to `getConfig`/`updateConfig`:
its heap and the reference of `this.config`. -/
structure InterpState where
  heap : ObjHeap
  configRef : Nat

/-- Read the object at reference `r`. -/
def readObj (s : InterpState) (r : Nat) : InterpreterConfig :=
  s.heap.objs r

/-- Mutate the object at reference `r` in place. -/
def writeObj (s : InterpState) (r : Nat) (v : InterpreterConfig) :
    InterpState :=
  { s with
      heap :=
        { s.heap with
            objs := fun n => if n = r then v else s.heap.objs n } }

/-- Embedding of `getConfig` (interpreter.ts lines 343-345): `{ ...this.config }`
allocates a fresh object holding a shallow copy of the stored policy and
returns its reference together with the post-state. -/
def getConfig (s : InterpState) : Nat × InterpState :=
  (s.heap.next,
    { s with
        heap :=
          { objs := fun n =>
              if n = s.heap.next then s.heap.objs s.configRef
              else s.heap.objs n,
            next := s.heap.next + 1 } })

/-- Embedding of `updateConfig` (interpreter.ts lines 350-352):
`Object.assign(this.config, newConfig)` mutates the stored policy object in
place with an unchecked shallow merge. -/
def updateConfig (s : InterpState) (p : PartialInterpreterConfig) :
    InterpState :=
  writeObj s s.configRef (mergeConfig (readObj s s.configRef) p)

/-! ## Helper lemmas -/

/-- A lint result is valid exactly when its error list is empty, on both the
normal and the catch path of `lintCode`. -/
theorem lintCode_isValid_iff (env : LintEnv) (code : String)
    (strict : Option Bool) :
    (lintCode env code strict).isValid = true ↔
      (lintCode env code strict).errors = [] := by
  cases h : env.tempFileError with
  | some msg => simp [lintCode, h]
  | none => simp [lintCode, h, List.length_eq_zero]

/-- The `strict` option influences only the warnings of a lint result. -/
theorem lintCode_isValid_strict_irrelevant (env : LintEnv) (code : String)
    (strict strict₂ : Option Bool) :
    (lintCode env code strict).isValid = (lintCode env code strict₂).isValid
      ∧ (lintCode env code strict).errors
          = (lintCode env code strict₂).errors := by
  cases h : env.tempFileError <;> simp [lintCode, h]

/-- Unfolding of `runStream` over a first chunk. -/
theorem runStream_cons (cfg : InterpreterConfig) (e : ProcEvent)
    (rest : List ProcEvent) (st : StreamState) :
    runStream cfg (e :: rest) st = runStream cfg rest (stepChunk cfg st e) :=
  rfl

/-- The streaming handlers accumulate the full stdout of the run,
independently of event suppression. -/
theorem runStream_stdout (cfg : InterpreterConfig) :
    ∀ (chunks : List ProcEvent) (st : StreamState),
      (runStream cfg chunks st).stdout = st.stdout ++ collectStdout chunks
  | [], st => by simp [runStream, collectStdout]
  | ProcEvent.out d ts :: rest, st => by
      rw [runStream_cons, runStream_stdout cfg rest]
      simp [stepChunk, collectStdout, String.append_assoc]
  | ProcEvent.err d ts :: rest, st => by
      rw [runStream_cons, runStream_stdout cfg rest]
      simp [stepChunk, collectStdout]

/-- The streaming handlers accumulate the full stderr of the run. -/
theorem runStream_stderr (cfg : InterpreterConfig) :
    ∀ (chunks : List ProcEvent) (st : StreamState),
      (runStream cfg chunks st).stderr = st.stderr ++ collectStderr chunks
  | [], st => by simp [runStream, collectStderr]
  | ProcEvent.out d ts :: rest, st => by
      rw [runStream_cons, runStream_stderr cfg rest]
      simp [stepChunk, collectStderr]
  | ProcEvent.err d ts :: rest, st => by
      rw [runStream_cons, runStream_stderr cfg rest]
      simp [stepChunk, collectStderr, String.append_assoc]

/-- Once the line counter is at or above the limit and unsafe mode is off,
the remaining chunks produce exactly the stderr events: every further stdout
event is suppressed, stderr delivery is unaffected. -/
theorem runStream_events_suppressed (cfg : InterpreterConfig)
    (huo : cfg.allowUnsafeOperations = false) :
    ∀ (chunks : List ProcEvent) (st : StreamState),
      cfg.maxOutputLines ≤ st.outputLineCount →
      (runStream cfg chunks st).events
        = st.events ++ chunks.filterMap stderrEventOf
  | [], st, _ => by simp [runStream]
  | ProcEvent.out d ts :: rest, st, h => by
      rw [runStream_cons]
      have hcond : ¬(cfg.allowUnsafeOperations = true
          ∨ st.outputLineCount + countNewlines d < cfg.maxOutputLines) := by
        simp [huo]
        omega
      have hcnt : cfg.maxOutputLines
          ≤ (stepChunk cfg st (ProcEvent.out d ts)).outputLineCount := by
        simp [stepChunk]
        omega
      rw [runStream_events_suppressed cfg huo rest _ hcnt]
      simp [stepChunk, hcond, stderrEventOf]
  | ProcEvent.err d ts :: rest, st, h => by
      rw [runStream_cons]
      have hcnt : cfg.maxOutputLines
          ≤ (stepChunk cfg st (ProcEvent.err d ts)).outputLineCount := by
        simpa [stepChunk] using h
      rw [runStream_events_suppressed cfg huo rest _ hcnt]
      simp [stepChunk, stderrEventOf]

/-- With `allowUnsafeOperations` set, every chunk's event is emitted. -/
theorem runStream_events_all (cfg : InterpreterConfig)
    (huo : cfg.allowUnsafeOperations = true) :
    ∀ (chunks : List ProcEvent) (st : StreamState),
      (runStream cfg chunks st).events = st.events ++ chunks.map eventOf
  | [], st => by simp [runStream]
  | ProcEvent.out d ts :: rest, st => by
      rw [runStream_cons, runStream_events_all cfg huo rest]
      simp [stepChunk, huo, eventOf]
  | ProcEvent.err d ts :: rest, st => by
      rw [runStream_cons, runStream_events_all cfg huo rest]
      simp [stepChunk, eventOf]

/-- The line counter advances by exactly the number of stdout line
boundaries, regardless of suppression. -/
theorem runStream_count (cfg : InterpreterConfig) :
    ∀ (chunks : List ProcEvent) (st : StreamState),
      (runStream cfg chunks st).outputLineCount
        = st.outputLineCount + outNewlines chunks
  | [], st => by simp [runStream, outNewlines]
  | ProcEvent.out d ts :: rest, st => by
      rw [runStream_cons, runStream_count cfg rest]
      simp [stepChunk, outNewlines]
      omega
  | ProcEvent.err d ts :: rest, st => by
      rw [runStream_cons, runStream_count cfg rest]
      simp [stepChunk, outNewlines]

/-- For a run that closes normally, the streaming promise resolves with the
same result as the non-streaming path: the limit machinery never changes the
terminal outcome. -/
theorem streamingClose_eq_directly (cfg : InterpreterConfig)
    (chunks : List ProcEvent) (code : Option Int) (elapsed : Nat) :
    Except.map Prod.fst
      (executeWithStreaming cfg ⟨chunks, ProcTerminal.close code⟩ elapsed)
      = Except.ok (executeDirectly ⟨chunks, ProcTerminal.close code⟩ elapsed) := by
  simp [executeWithStreaming, executeDirectly, Except.map,
    runStream_stdout, runStream_stderr, initialStreamState]

/-! ## Claim theorems -/

/-- C7: for every caller-supplied configuration, `createInterpreter` yields a
policy with `enableLinting = true` and `allowUnsafeOperations = false` (the
hard floor wins even over overrides that set them the other way, since the
statement quantifies over all overrides), while the unrelated override fields
(interpreter path, timeout, output limit, and also working directory and
environment) are honored. -/
theorem c7_safe_constructor_hard_floor (procCwd : String)
    (procEnv : List (String × String)) (p : PartialInterpreterConfig) :
    (createInterpreter procCwd procEnv p).enableLinting = true
    ∧ (createInterpreter procCwd procEnv p).allowUnsafeOperations = false
    ∧ (createInterpreter procCwd procEnv p).pythonPath
        = p.pythonPath.getD "python3"
    ∧ (createInterpreter procCwd procEnv p).timeout = p.timeout.getD 30000
    ∧ (createInterpreter procCwd procEnv p).maxOutputLines
        = p.maxOutputLines.getD 1000
    ∧ (createInterpreter procCwd procEnv p).workingDirectory
        = p.workingDirectory.getD procCwd
    ∧ (createInterpreter procCwd procEnv p).environment
        = p.environment.getD procEnv :=
  ⟨rfl, rfl, rfl, rfl, rfl, rfl, rfl⟩

/-- C8: for every snippet and strict option, the lint result is valid iff its
error list is empty, and the `strict` flag (hence the number of heuristic
warnings) never affects validity. -/
theorem c8_isValid_iff_errors_empty (env : LintEnv) (code : String)
    (strict : Option Bool) :
    ((lintCode env code strict).isValid = true ↔
        (lintCode env code strict).errors = [])
    ∧ ∀ strict₂, (lintCode env code strict).isValid
        = (lintCode env code strict₂).isValid :=
  ⟨lintCode_isValid_iff env code strict,
    fun strict₂ => (lintCode_isValid_strict_irrelevant env code strict strict₂).1⟩

/-- C6: `executeUnsafe` restores the policy exactly on every exit path (the
`finally` block runs whether the inner `executeCode` resolved or rejected,
and only the two saved fields were touched, so the entire policy — all other
fields included — is back to its pre-call value), and the inner call runs
against the pre-call policy with exactly `enableLinting` forced to false and
`allowUnsafeOperations` forced to true. -/
theorem c6_executeUnsafe_restores_policy (cfg : InterpreterConfig)
    (env : ExecEnv) (code : String) (context : UnsafeExecutionContext) :
    (executeUnsafe cfg env code context).2 = cfg
    ∧ (executeUnsafe cfg env code context).1 =
        executeCode
          { cfg with enableLinting := false, allowUnsafeOperations := true }
          env code (mkUnsafeOptions cfg context) := by
  refine ⟨?_, rfl⟩
  cases cfg
  rfl

/-- C2 (code bug): the code arms the kill timer unconditionally with the JS
expression `options.timeout || config.timeout`.  With the policy of
`createUnsafeInterpreter` (whose source reads `timeout: 0, // No timeout`)
and no per-call override, a timer with delay 0 is armed — it fires on the
next tick and SIGKILLs the process — where the claim (and the source's own
comment) require no timer at all.  Moreover a per-call timeout of 0 is falsy
under `||`, so it is ignored in favor of the policy default instead of
meaning unlimited. -/
theorem c2_zero_timeout_arms_immediate_timer :
    armedKillDelay (createUnsafeInterpreter "" [] emptyPartial) emptyOptions
        = some 0
    ∧ specTimerDelay (createUnsafeInterpreter "" [] emptyPartial)
        emptyOptions = none
    ∧ armedKillDelay (mkInterpreterConfig "" [] emptyPartial)
        { emptyOptions with timeout := some 0 } = some 30000
    ∧ specTimerDelay (mkInterpreterConfig "" [] emptyPartial)
        { emptyOptions with timeout := some 0 } = none :=
  ⟨rfl, rfl, rfl, rfl⟩

/-- C4 counterexample: when the process closes without an exit code (`code`
is `null`, e.g. after a signal kill), the result construction
`success: code === 0, exitCode: code || 0` produces a result whose reported
`exitCode` is 0 while `success` is false — exactly the result the claim says
cannot exist. -/
theorem c4_counterexample_null_exit_code :
    (executeDirectly ⟨[], ProcTerminal.close none⟩ 0).success = false
    ∧ (executeDirectly ⟨[], ProcTerminal.close none⟩ 0).exitCode = 0 :=
  ⟨rfl, rfl⟩

/-- C4 amended: `success` is true exactly when the exit code is present and
equal to 0 — a missing/null exit code yields `success = false` and is
normalized to 0 only for the reported `exitCode` — so a result with reported
exit code 0 and `success = false` arises exactly from a null exit code; the
streaming close handler builds the same result as the non-streaming one. -/
theorem c4_success_iff_exit_code_zero (code : Option Int)
    (chunks : List ProcEvent) (elapsed : Nat) :
    ((executeDirectly ⟨chunks, ProcTerminal.close code⟩ elapsed).success
        = true ↔ code = some 0)
    ∧ (executeDirectly ⟨chunks, ProcTerminal.close code⟩ elapsed).exitCode
        = code.getD 0
    ∧ ((executeDirectly ⟨chunks, ProcTerminal.close code⟩ elapsed).success
          = false
        ∧ (executeDirectly ⟨chunks, ProcTerminal.close code⟩ elapsed).exitCode
          = 0 ↔ code = none)
    ∧ ∀ cfg, Except.map Prod.fst
        (executeWithStreaming cfg ⟨chunks, ProcTerminal.close code⟩ elapsed)
        = Except.ok (executeDirectly ⟨chunks, ProcTerminal.close code⟩ elapsed) := by
  refine ⟨?_, ?_, ?_, ?_⟩
  · cases code with
    | none => simp [executeDirectly]
    | some c => simp [executeDirectly]
  · cases code <;> simp [executeDirectly, jsExitCode, Option.getD]
  · cases code with
    | none => simp [executeDirectly, jsExitCode]
    | some c => simp [executeDirectly, jsExitCode]
  · intro cfg
    simp [executeWithStreaming, executeDirectly, Except.map,
      runStream_stdout, runStream_stderr, initialStreamState]

/-- C5 counterexample: the aliased import line from the claim,
`import os as operating_system`, still contains the literal text matched by
the pattern `import\s+os`, so the heuristic stage DOES produce a warning for
it (and exactly one). -/
theorem c5_counterexample_alias_is_flagged :
    performBasicSecurityCheck "import os as operating_system" =
      [⟨1, 1, "Potentially dangerous: os module import",
        some "security-warning"⟩] := by
  decide

/-- C5 amended: the pattern table performs textual matching only, so a
risky import evades the heuristic stage exactly when its line avoids the
literal pattern text: a from-import rewrite like `from os import getcwd` has no
warning, while the renamed binding `import os as operating_system` is still
flagged because its line contains the substring matched by `import\s+os`. -/
theorem c5_textual_matching_only :
    performBasicSecurityCheck "from os import getcwd" = []
    ∧ (lintCode ⟨none, []⟩ "import os as operating_system" none).warnings
        ≠ [] := by
  constructor
  · decide
  · decide

/-- C1 counterexample: in streaming mode a spawn failure REJECTS the promise
returned by `executeCode` — the `error` handler calls `reject(error)`, and
the `return this.executeWithStreaming(...)` inside the `try` block is not
awaited, so the rejection bypasses the `catch` — contradicting the claim
that the promise never rejects for a spawn failure. -/
theorem c1_counterexample_streaming_rejects :
    executeCode (mkInterpreterConfig "" [] emptyPartial)
      ⟨⟨none, []⟩, none,
        ⟨[], ProcTerminal.spawnErr "spawn python3 ENOENT"⟩, 0⟩
      "print(1)" { emptyOptions with stream := some true }
      = Except.error "spawn python3 ENOENT" := by
  rfl

/-- C1 amended: a spawn failure on an execution that reaches the spawn (temp
file written, lint pass — when it gates at all — valid) resolves to a failed
result with the diagnostic message appended to stderr in NON-streaming mode,
and rejects the returned promise with the spawn error in streaming mode. -/
theorem c1_amended_spawn_failure (cfg : InterpreterConfig) (lenv : LintEnv)
    (chunks : List ProcEvent) (msg : String) (elapsed : Nat) (code : String)
    (options : ExecutionOptions)
    (hlint : cfg.enableLinting = true ∧ options.sanitize ≠ some false →
      (lintCode lenv code (some (!cfg.allowUnsafeOperations))).isValid
        = true) :
    (options.stream ≠ some true →
      executeCode cfg
          ⟨lenv, none, ⟨chunks, ProcTerminal.spawnErr msg⟩, elapsed⟩
          code options
        = Except.ok ⟨false, collectStdout chunks,
            collectStderr chunks ++ msg, 1, elapsed⟩)
    ∧ (options.stream = some true →
      executeCode cfg
          ⟨lenv, none, ⟨chunks, ProcTerminal.spawnErr msg⟩, elapsed⟩
          code options
        = Except.error msg) := by
  constructor
  · intro hs
    by_cases hg : cfg.enableLinting = true ∧ options.sanitize ≠ some false
    · simp [executeCode, hg, hlint hg, executeCodeProceed, executeDirectly, hs]
    · simp [executeCode, hg, executeCodeProceed, executeDirectly, hs]
  · intro hs
    by_cases hg : cfg.enableLinting = true ∧ options.sanitize ≠ some false
    · simp [executeCode, hg, hlint hg, executeCodeProceed, hs,
        executeWithStreaming, Except.map]
    · simp [executeCode, hg, executeCodeProceed, hs,
        executeWithStreaming, Except.map]

/-- Witness for the amended C1 at a concrete input: the hypotheses hold (the
lint pass accepts the snippet, the call is non-streaming) and a spawn failure
resolves to a failed result carrying the diagnostic. -/
theorem c1_amended_spawn_failure_witness :
    (lintCode ⟨none, []⟩ "print(1)" (some true)).isValid = true
    ∧ emptyOptions.stream ≠ some true
    ∧ executeCode (mkInterpreterConfig "" [] emptyPartial)
        ⟨⟨none, []⟩, none,
          ⟨[], ProcTerminal.spawnErr "spawn python3 ENOENT"⟩, 0⟩
        "print(1)" emptyOptions
      = Except.ok ⟨false, "", "spawn python3 ENOENT", 1, 0⟩ := by
  refine ⟨rfl, by decide, ?_⟩
  have h := (c1_amended_spawn_failure (mkInterpreterConfig "" [] emptyPartial)
      ⟨none, []⟩ [] "spawn python3 ENOENT" 0 "print(1)" emptyOptions
      (fun _ => rfl)).1 (by decide)
  simpa using h

/-- C3: with linting enabled and sanitization not disabled for the call, an
invalid lint result (nonempty error list) makes `executeCode` return a failed
result with exit code forced to 1, empty stdout, and stderr the joined error
messages; the result is independent of the temp file, the process and the
clock (no interpreter process is consulted); and whenever the error list is
empty — however many warnings there are — execution proceeds past the
gate. -/
theorem c3_lint_gate_blocks_invalid (cfg : InterpreterConfig) (env : ExecEnv)
    (code : String) (options : ExecutionOptions)
    (hL : cfg.enableLinting = true)
    (hS : options.sanitize ≠ some false)
    (hE : (lintCode env.lintEnv code
        (some (!cfg.allowUnsafeOperations))).errors ≠ []) :
    (executeCode cfg env code options
      = Except.ok ⟨false, "",
          joinWith "\n" ((lintCode env.lintEnv code
            (some (!cfg.allowUnsafeOperations))).errors.map
              fun e => e.message),
          1, env.elapsed⟩)
    ∧ (∀ tfe run elapsed₂,
        executeCode cfg ⟨env.lintEnv, tfe, run, elapsed₂⟩ code options
          = Except.ok ⟨false, "",
              joinWith "\n" ((lintCode env.lintEnv code
                (some (!cfg.allowUnsafeOperations))).errors.map
                  fun e => e.message),
              1, elapsed₂⟩)
    ∧ (∀ env₂ : ExecEnv,
        (lintCode env₂.lintEnv code
          (some (!cfg.allowUnsafeOperations))).errors = [] →
        executeCode cfg env₂ code options
          = executeCodeProceed cfg env₂ code options) := by
  have hvalid : (lintCode env.lintEnv code
      (some (!cfg.allowUnsafeOperations))).isValid = false := by
    rcases Bool.eq_false_or_eq_true
        ((lintCode env.lintEnv code
          (some (!cfg.allowUnsafeOperations))).isValid) with hb | hb
    · exact absurd ((lintCode_isValid_iff _ _ _).mp hb) hE
    · exact hb
  refine ⟨?_, ?_, ?_⟩
  · simp [executeCode, hL, hS, hvalid]
  · intro tfe run elapsed₂
    simp [executeCode, hL, hS, hvalid]
  · intro env₂ hE₂
    have hvalid₂ : (lintCode env₂.lintEnv code
        (some (!cfg.allowUnsafeOperations))).isValid = true :=
      (lintCode_isValid_iff _ _ _).mpr hE₂
    by_cases hg : cfg.enableLinting = true ∧ options.sanitize ≠ some false
    · simp [executeCode, hg, hvalid₂]
    · simp [executeCode, hg]

/-- Witness for C3 at a concrete input: the gate hypotheses hold (safe
default policy, no sanitize option, one syntax error) and `executeCode`
short-circuits to the lint-failure result. -/
theorem c3_lint_gate_blocks_invalid_witness :
    (lintCode ⟨none, [⟨1, 1, "SyntaxError: invalid syntax", "error",
        some "syntax-error"⟩]⟩ "print(" (some true)).errors ≠ []
    ∧ executeCode (mkInterpreterConfig "" [] emptyPartial)
        ⟨⟨none, [⟨1, 1, "SyntaxError: invalid syntax", "error",
            some "syntax-error"⟩]⟩, none,
          ⟨[], ProcTerminal.close (some 0)⟩, 0⟩
        "print(" emptyOptions
      = Except.ok ⟨false, "", "SyntaxError: invalid syntax", 1, 0⟩ := by
  refine ⟨by decide, ?_⟩
  have h := (c3_lint_gate_blocks_invalid (mkInterpreterConfig "" [] emptyPartial)
      ⟨⟨none, [⟨1, 1, "SyntaxError: invalid syntax", "error",
          some "syntax-error"⟩]⟩, none,
        ⟨[], ProcTerminal.close (some 0)⟩, 0⟩
      "print(" emptyOptions rfl (by decide) (by decide)).1
  simpa using h

/-- C9: in streaming mode, once the internal counter of stdout line
boundaries has reached `maxOutputLines` (and `allowUnsafeOperations` is
off), the remaining chunks emit exactly the stderr events — no further
stdout StreamEvents, stderr unaffected; the counter counts line boundaries;
a normally closing process still closes with its own result (reaching the
limit never kills it); and with `allowUnsafeOperations` on, no stdout event
is ever suppressed. -/
theorem c9_stdout_suppression_after_limit (cfg : InterpreterConfig)
    (st : StreamState) (chunks : List ProcEvent)
    (huo : cfg.allowUnsafeOperations = false)
    (hreached : cfg.maxOutputLines ≤ st.outputLineCount) :
    ((runStream cfg chunks st).events
        = st.events ++ chunks.filterMap stderrEventOf)
    ∧ (∀ chunks₂ st₂, (runStream cfg chunks₂ st₂).outputLineCount
          = st₂.outputLineCount + outNewlines chunks₂)
    ∧ (∀ code elapsed, Except.map Prod.fst
          (executeWithStreaming cfg ⟨chunks, ProcTerminal.close code⟩ elapsed)
          = Except.ok
              (executeDirectly ⟨chunks, ProcTerminal.close code⟩ elapsed))
    ∧ (∀ cfg₂ : InterpreterConfig, cfg₂.allowUnsafeOperations = true →
        ∀ chunks₂ st₂, (runStream cfg₂ chunks₂ st₂).events
          = st₂.events ++ chunks₂.map eventOf) :=
  ⟨runStream_events_suppressed cfg huo chunks st hreached,
    fun chunks₂ st₂ => runStream_count cfg chunks₂ st₂,
    fun code elapsed => streamingClose_eq_directly cfg chunks code elapsed,
    fun cfg₂ h₂ chunks₂ st₂ => runStream_events_all cfg₂ h₂ chunks₂ st₂⟩

/-- Witness for C9 at a concrete input: a policy with `maxOutputLines = 1`, a
state whose counter already reached 1, and two further chunks — the stdout
chunk is suppressed while the stderr chunk is still emitted. -/
theorem c9_stdout_suppression_after_limit_witness :
    (1 : Nat) ≤ 1
    ∧ (runStream ⟨"python3", 30000, 1, true, false, "", []⟩
        [ProcEvent.out "x\n" 5, ProcEvent.err "oops" 6]
        ⟨"a\n", "", 1, []⟩).events
      = [⟨StreamType.stderr, "oops", 6⟩] := by
  refine ⟨by decide, ?_⟩
  have h := (c9_stdout_suppression_after_limit
      ⟨"python3", 30000, 1, true, false, "", []⟩
      ⟨"a\n", "", 1, []⟩
      [ProcEvent.out "x\n" 5, ProcEvent.err "oops" 6]
      rfl (by decide)).1
  simpa using h

/-- C10: `getConfig` hands out a detached shallow copy: the fresh reference
differs from the stored policy's reference, the stored policy is unchanged by
the call, the copy holds the policy's value, and mutating the copy (through
any value `v`) changes neither the stored policy nor what a later `getConfig`
returns. -/
theorem c10_getConfig_detached_copy (s : InterpState)
    (h : s.configRef < s.heap.next) :
    ((getConfig s).1 ≠ s.configRef)
    ∧ ((getConfig s).2.configRef = s.configRef)
    ∧ (readObj (getConfig s).2 s.configRef = readObj s s.configRef)
    ∧ (readObj (getConfig s).2 (getConfig s).1 = readObj s s.configRef)
    ∧ (∀ v, readObj (writeObj (getConfig s).2 (getConfig s).1 v) s.configRef
          = readObj s s.configRef)
    ∧ (∀ v, readObj
          (getConfig (writeObj (getConfig s).2 (getConfig s).1 v)).2
          (getConfig (writeObj (getConfig s).2 (getConfig s).1 v)).1
        = readObj s s.configRef) := by
  have hne : s.configRef ≠ s.heap.next := Nat.ne_of_lt h
  refine ⟨fun hc => hne hc.symm, rfl, ?_, ?_, ?_, ?_⟩
  · simp [getConfig, readObj, hne]
  · simp [getConfig, readObj]
  · intro v
    simp [getConfig, writeObj, readObj, hne]
  · intro v
    simp [getConfig, writeObj, readObj, hne]

/-- Witness for C10 at a concrete state: one policy object at reference 0,
allocator at 1; mutating the copy returned by `getConfig` leaves the stored
policy at its original value. -/
theorem c10_getConfig_detached_copy_witness :
    (0 : Nat) < 1
    ∧ readObj
        (writeObj
          (getConfig ⟨⟨fun _ => defaultInterpreterConfig "" [], 1⟩, 0⟩).2
          (getConfig ⟨⟨fun _ => defaultInterpreterConfig "" [], 1⟩, 0⟩).1
          ⟨"python3", 0, 0, false, true, "", []⟩)
        (0 : Nat)
      = defaultInterpreterConfig "" [] := by
  refine ⟨by decide, ?_⟩
  have h := (c10_getConfig_detached_copy
      ⟨⟨fun _ => defaultInterpreterConfig "" [], 1⟩, 0⟩
      (by decide)).2.2.2.2.1 ⟨"python3", 0, 0, false, true, "", []⟩
  simpa using h

end DVI
